import Mathlib

/-!
Verification of the hiero-enterprise-js core against its specification.

This file gives a shallow embedding of the core of the repository:
the mirror-node response converters and pagination engine
(packages/core/src/services/topic-client.ts), the transaction lifecycle
dispatch (HieroContext.emitBeforeTransaction / emitAfterTransaction and the
service-call skeleton of NftClient.createNftType / FileClient.createFile),
and the HieroContext singleton lifecycle.  Pure TypeScript functions become
Lean functions; the mutable singleton becomes explicit state passing; the
event-loop clock becomes an explicit natural-number clock threaded through
the dispatch; thrown exceptions become Except values.
-/

namespace Hiero

/-- Model of the JavaScript `String.prototype.toLowerCase` builtin,
character by character (the identifiers it is applied to are ASCII). -/
def jsToLowerCase (s : String) : String :=
  String.mk (s.data.map Char.toLower)

/-- Model of the JavaScript `String.prototype.toUpperCase` builtin,
character by character. -/
def jsToUpperCase (s : String) : String :=
  String.mk (s.data.map Char.toUpper)

/-- Model of `.replace(/ /g, "")`: drop every space character. -/
def removeSpaces (s : String) : String :=
  String.mk (s.data.filter fun c => c != ' ')

/-! ### Pagination engine (topic-client.ts, convertPage) -/

/-- Value of one top-level key of a raw mirror-node response body, as far as
`convertPage` can observe it: a JSON array of raw items, an object of the
shape of the `links` field (`next` is `none` when it is JSON null or absent),
or any other JSON value. -/
inductive PageField (TRaw : Type) where
  | arrayVal (items : List TRaw)
  | linksObj (next : Option String)
  | otherVal
deriving DecidableEq

/-- Raw mirror-node response body: the top-level keys in their iteration
order.  A JavaScript object never holds the same key twice; theorems that
need this state it as a `Nodup` hypothesis on the key list. -/
structure RawPage (TRaw : Type) where
  fields : List (String × PageField TRaw)
deriving DecidableEq

/-- Property access `raw[k]`: the value of the first occurrence of key `k`. -/
def lookupField {TRaw : Type} : List (String × PageField TRaw) → String → Option (PageField TRaw)
  | [], _ => none
  | (k, v) :: rest, key => if key = k then some v else lookupField rest key

/-- Test `Array.isArray(raw[k])` on an observed field value. -/
def fieldIsArray {TRaw : Type} : PageField TRaw → Bool
  | .arrayVal _ => true
  | _ => false

/-- Pagination links of the converted page (`next` is `none` for JSON null). -/
structure PageLinks where
  next : Option String
deriving DecidableEq

/-- Converted page, as in data/account.ts (`Page<T>`). -/
structure Page (T : Type) where
  data : List T
  links : PageLinks
deriving DecidableEq

/-- Key discovery of `convertPage`: the first top-level key that is not
`links` and whose value is a JSON array. -/
def dataKeyOf {TRaw : Type} (raw : RawPage TRaw) : Option String :=
  (raw.fields.map Prod.fst).find? fun k =>
    k != "links" &&
      (match lookupField raw.fields k with
       | some f => fieldIsArray f
       | none => false)

/-- Read `raw.links?.next ?? null`.  When `links` is absent or is not an
object of the links shape, or its `next` is null/absent, the result is
`none`; otherwise the string is passed through unchanged. -/
def linksNextOf {TRaw : Type} (raw : RawPage TRaw) : Option String :=
  match lookupField raw.fields "links" with
  | some (.linksObj n) => n
  | _ => none

/-- Model of `convertPage` from topic-client.ts: find the first non-`links`
array key, map the converter over its items, and carry `links?.next ?? null`
through. -/
def convertPage {TRaw TOut : Type} (raw : RawPage TRaw) (converter : TRaw → TOut) : Page TOut :=
  let items : List TRaw :=
    match dataKeyOf raw with
    | some k =>
      match lookupField raw.fields k with
      | some (.arrayVal xs) => xs
      | _ => []
    | none => []
  { data := items.map converter, links := { next := linksNextOf raw } }

/-- The predicate of the `Object.keys(raw).find` scan, read on a key/value
pair: the key is not `links` and the value is a JSON array. -/
def qualifies {TRaw : Type} (kv : String × PageField TRaw) : Bool :=
  kv.1 != "links" && fieldIsArray kv.2

/-! ### Token info and custom fees (topic-client.ts, convertTokenInfo) -/

/-- Wrapper object of a key field (`{ key: string }`) of the mirror API. -/
structure KeyObj where
  key : String
deriving DecidableEq

/-- Raw fixed fee (MirrorFixedFee in topic-client.ts). -/
structure MirrorFixedFee where
  amount : Int
  collector_account_id : String
  denominating_token_id : Option String := none
  all_collectors_are_exempt : Bool
deriving DecidableEq

/-- Raw fractional fee (MirrorFractionalFee in topic-client.ts). -/
structure MirrorFractionalFee where
  numerator : Int
  denominator : Int
  minimum : Option Int := none
  maximum : Option Int := none
  net_of_transfers : Bool
  collector_account_id : String
  all_collectors_are_exempt : Bool
deriving DecidableEq

/-- Raw royalty fallback fee payload. -/
structure MirrorFallbackFee where
  amount : Int
  denominating_token_id : Option String := none
deriving DecidableEq

/-- Raw royalty fee (MirrorRoyaltyFee in topic-client.ts). -/
structure MirrorRoyaltyFee where
  numerator : Int
  denominator : Int
  fallback_fee : Option MirrorFallbackFee := none
  collector_account_id : String
  all_collectors_are_exempt : Bool
deriving DecidableEq

/-- Raw `custom_fees` object of a token response. -/
structure MirrorCustomFees where
  fixed_fees : Option (List MirrorFixedFee) := none
  fractional_fees : Option (List MirrorFractionalFee) := none
  royalty_fees : Option (List MirrorRoyaltyFee) := none
deriving DecidableEq

/-- Raw token response (MirrorTokenResponse in topic-client.ts). -/
structure MirrorTokenResponse where
  token_id : String
  name : String
  symbol : String
  type : String
  decimals : String
  total_supply : String
  max_supply : String
  treasury_account_id : String
  admin_key : Option KeyObj := none
  supply_key : Option KeyObj := none
  freeze_key : Option KeyObj := none
  wipe_key : Option KeyObj := none
  kyc_key : Option KeyObj := none
  pause_key : Option KeyObj := none
  fee_schedule_key : Option KeyObj := none
  deleted : Bool
  pause_status : Option String := none
  custom_fees : Option MirrorCustomFees := none
  created_timestamp : Option String := none
  expiry_timestamp : Option String := none
  memo : Option String := none
deriving DecidableEq

/-- Converted royalty fallback fee. -/
structure FallbackFee where
  amount : Int
  denominatingTokenId : Option String
deriving DecidableEq

/-- Converted custom fee: the closed tagged union of data/index.ts
(CustomFee / FixedFee / FractionalFee / RoyaltyFee), with the `type`
discriminant carried by the constructor. -/
inductive CustomFee where
  | fixed (amount : Int) (collectorAccountId : String) (allCollectorsAreExempt : Bool)
      (denominatingTokenId : Option String)
  | fractional (numerator denominator : Int) (min max : Option Int) (netOfTransfers : Bool)
      (collectorAccountId : String) (allCollectorsAreExempt : Bool)
  | royalty (numerator denominator : Int) (fallbackFee : Option FallbackFee)
      (collectorAccountId : String) (allCollectorsAreExempt : Bool)
deriving DecidableEq

/-- The `type` discriminant string of a converted custom fee. -/
def CustomFee.feeType : CustomFee → String
  | .fixed .. => "fixed"
  | .fractional .. => "fractional"
  | .royalty .. => "royalty"

/-- Conversion of one raw fixed fee, as pushed by the first loop of
`convertTokenInfo`. -/
def convertMirrorFixedFee (f : MirrorFixedFee) : CustomFee :=
  .fixed f.amount f.collector_account_id f.all_collectors_are_exempt f.denominating_token_id

/-- Conversion of one raw fractional fee, as pushed by the second loop of
`convertTokenInfo`. -/
def convertMirrorFractionalFee (f : MirrorFractionalFee) : CustomFee :=
  .fractional f.numerator f.denominator f.minimum f.maximum f.net_of_transfers
    f.collector_account_id f.all_collectors_are_exempt

/-- Conversion of one raw royalty fee, as pushed by the third loop of
`convertTokenInfo`. -/
def convertMirrorRoyaltyFee (f : MirrorRoyaltyFee) : CustomFee :=
  .royalty f.numerator f.denominator
    (f.fallback_fee.map fun fb => { amount := fb.amount, denominatingTokenId := fb.denominating_token_id })
    f.collector_account_id f.all_collectors_are_exempt

/-- Model of JavaScript `parseInt(s, 10)`: skip leading spaces, read an
optional sign and the longest digit prefix; `none` models NaN (no digit). -/
def parseIntJS (s : String) : Option Int :=
  let cs := s.toList.dropWhile fun c => c = ' '
  let signAndRest : Int × List Char :=
    match cs with
    | c :: t => if c = '-' then (-1, t) else if c = '+' then (1, t) else (1, cs)
    | [] => (1, cs)
  let digits := signAndRest.2.takeWhile Char.isDigit
  if digits.isEmpty then none
  else some (signAndRest.1 * (digits.foldl (fun acc c => acc * 10 + (c.toNat - 48)) 0 : Nat))

/-- Converted token record (TokenInfo in data/index.ts); `decimals` is
`none` when `parseInt` yields NaN. -/
structure TokenInfo where
  tokenId : String
  name : String
  symbol : String
  type : String
  decimals : Option Int
  totalSupply : String
  maxSupply : String
  treasuryAccountId : String
  adminKey : Option String
  supplyKey : Option String
  freezeKey : Option String
  wipeKey : Option String
  kycKey : Option String
  pauseKey : Option String
  feeScheduleKey : Option String
  deleted : Bool
  paused : Bool
  customFees : List CustomFee
  createdTimestamp : Option String
  expirationTimestamp : Option String
  memo : Option String
deriving DecidableEq

/-- Model of `convertTokenInfo` from topic-client.ts.  The three `for` loops
that push converted fees onto `customFees` become three left folds that
append one converted entry at a time, in source order: all fixed fees, then
all fractional fees, then all royalty fees. -/
def convertTokenInfo (raw : MirrorTokenResponse) : TokenInfo :=
  let customFees : List CustomFee :=
    match raw.custom_fees with
    | none => []
    | some cf =>
      let l1 := (cf.fixed_fees.getD []).foldl (fun acc f => acc ++ [convertMirrorFixedFee f]) []
      let l2 := (cf.fractional_fees.getD []).foldl (fun acc f => acc ++ [convertMirrorFractionalFee f]) l1
      (cf.royalty_fees.getD []).foldl (fun acc f => acc ++ [convertMirrorRoyaltyFee f]) l2
  { tokenId := raw.token_id
    name := raw.name
    symbol := raw.symbol
    type := if raw.type == "NON_FUNGIBLE_UNIQUE" then "NON_FUNGIBLE_UNIQUE" else "FUNGIBLE_COMMON"
    decimals := parseIntJS raw.decimals
    totalSupply := raw.total_supply
    maxSupply := raw.max_supply
    treasuryAccountId := raw.treasury_account_id
    adminKey := raw.admin_key.map KeyObj.key
    supplyKey := raw.supply_key.map KeyObj.key
    freezeKey := raw.freeze_key.map KeyObj.key
    wipeKey := raw.wipe_key.map KeyObj.key
    kycKey := raw.kyc_key.map KeyObj.key
    pauseKey := raw.pause_key.map KeyObj.key
    feeScheduleKey := raw.fee_schedule_key.map KeyObj.key
    deleted := raw.deleted
    paused := raw.pause_status == some "PAUSED"
    customFees := customFees
    createdTimestamp := raw.created_timestamp
    expirationTimestamp := raw.expiry_timestamp
    memo := raw.memo }

/-! ### Account converters (topic-client.ts, convertAccountInfo / convertBalance) -/

/-- Raw token balance entry (MirrorTokenBalance in topic-client.ts). -/
structure MirrorTokenBalance where
  token_id : String
  balance : Int
  decimals : Int
deriving DecidableEq

/-- Raw nested balance object of an account response. -/
structure MirrorBalanceObj where
  balance : Int
  tokens : List MirrorTokenBalance
deriving DecidableEq

/-- Raw account response (MirrorAccountResponse in topic-client.ts). -/
structure MirrorAccountResponse where
  account : String
  evm_address : Option String := none
  key : Option KeyObj := none
  balance : Option MirrorBalanceObj := none
  deleted : Option Bool := none
  auto_renew_period : Option Int := none
  memo : Option String := none
  max_automatic_token_associations : Option Int := none
  staked_account_id : Option String := none
  staked_node_id : Option Int := none
  stake_period_start : Option String := none
  created_timestamp : Option String := none
  expiry_timestamp : Option String := none
deriving DecidableEq

/-- Converted account record (AccountInfo in data/account.ts). -/
structure AccountInfo where
  accountId : String
  evmAddress : Option String
  key : Option String
  balance : Int
  deleted : Bool
  autoRenewPeriod : Option Int
  memo : Option String
  maxAutomaticTokenAssociations : Option Int
  stakedAccountId : Option String
  stakedNodeId : Option Int
  stakePeriodStart : Option String
  createdTimestamp : Option String
  expirationTimestamp : Option String
deriving DecidableEq

/-- Converted token balance (TokenBalance in the data model). -/
structure TokenBalance where
  tokenId : String
  balance : Int
  decimals : Int
deriving DecidableEq

/-- Converted balance record (Balance in the data model). -/
structure Balance where
  accountId : String
  hbars : Int
  tokens : List TokenBalance
deriving DecidableEq

/-- Model of `convertAccountInfo` from topic-client.ts. -/
def convertAccountInfo (raw : MirrorAccountResponse) : AccountInfo :=
  { accountId := raw.account
    evmAddress := raw.evm_address
    key := raw.key.map KeyObj.key
    balance := (raw.balance.map MirrorBalanceObj.balance).getD 0
    deleted := raw.deleted.getD false
    autoRenewPeriod := raw.auto_renew_period
    memo := raw.memo
    maxAutomaticTokenAssociations := raw.max_automatic_token_associations
    stakedAccountId := raw.staked_account_id
    stakedNodeId := raw.staked_node_id
    stakePeriodStart := raw.stake_period_start
    createdTimestamp := raw.created_timestamp
    expirationTimestamp := raw.expiry_timestamp }

/-- Model of `convertBalance` from topic-client.ts. -/
def convertBalance (accountId : String) (raw : MirrorAccountResponse) : Balance :=
  let tokens : List TokenBalance :=
    ((raw.balance.map MirrorBalanceObj.tokens).getD []).map fun t =>
      { tokenId := t.token_id, balance := t.balance, decimals := t.decimals }
  { accountId := accountId
    hbars := (raw.balance.map MirrorBalanceObj.balance).getD 0
    tokens := tokens }

/-! ### Transaction converter and mirror client (topic-client.ts) -/

/-- Raw HBAR transfer (MirrorTransfer in topic-client.ts). -/
structure MirrorTransfer where
  account : String
  amount : Int
  is_approval : Bool
deriving DecidableEq

/-- Raw token transfer (MirrorTokenTransfer in topic-client.ts). -/
structure MirrorTokenTransfer where
  token_id : String
  account : String
  amount : Int
deriving DecidableEq

/-- Raw NFT transfer (MirrorNftTransfer in topic-client.ts). -/
structure MirrorNftTransfer where
  token_id : String
  serial_number : Int
  sender_account_id : String
  receiver_account_id : String
deriving DecidableEq

/-- Raw staking reward transfer (MirrorStakingRewardTransfer). -/
structure MirrorStakingRewardTransfer where
  account : String
  amount : Int
deriving DecidableEq

/-- Raw transaction entry (MirrorTransaction in topic-client.ts).  The
fields that `convertTransactionInfo` guards with `?.`, `??` or truthiness
are optional here. -/
structure MirrorTransaction where
  transaction_id : String
  name : Option String := none
  result : String
  consensus_timestamp : String
  valid_start_timestamp : String
  charged_tx_fee : Int
  memo_base64 : Option String := none
  transfers : Option (List MirrorTransfer) := none
  token_transfers : Option (List MirrorTokenTransfer) := none
  nft_transfers : Option (List MirrorNftTransfer) := none
  staking_reward_transfers : Option (List MirrorStakingRewardTransfer) := none
deriving DecidableEq

/-- Converted HBAR transfer. -/
structure Transfer where
  accountId : String
  amount : Int
  isApproval : Bool
deriving DecidableEq

/-- Converted token transfer. -/
structure TokenTransferInfo where
  tokenId : String
  accountId : String
  amount : Int
deriving DecidableEq

/-- Converted NFT transfer. -/
structure NftTransferInfo where
  tokenId : String
  serialNumber : Int
  senderAccountId : String
  receiverAccountId : String
deriving DecidableEq

/-- Converted staking reward transfer. -/
structure StakingRewardTransfer where
  accountId : String
  amount : Int
deriving DecidableEq

/-- Converted transaction record (TransactionInfo in data/transaction.ts). -/
structure TransactionInfo where
  transactionId : String
  type : String
  name : String
  result : String
  consensusTimestamp : String
  validStartTimestamp : String
  successful : Bool
  chargedTxFee : Int
  memo : Option String
  transfers : List Transfer
  tokenTransfers : List TokenTransferInfo
  nftTransfers : List NftTransferInfo
  stakingRewardTransfers : List StakingRewardTransfer
deriving DecidableEq

/-- Model of `convertTransactionInfo` from topic-client.ts.  `atob` (the
platform base64 decoder used for `memo_base64`) is an external collaborator
and is passed in as a function; the truthiness test `raw.memo_base64 ?`
makes an empty string map to an absent memo. -/
def convertTransactionInfo (atob : String → String) (raw : MirrorTransaction) : TransactionInfo :=
  { transactionId := raw.transaction_id
    type := (raw.name.map fun n => removeSpaces (jsToUpperCase n)).getD ""
    name := raw.name.getD ""
    result := raw.result
    consensusTimestamp := raw.consensus_timestamp
    validStartTimestamp := raw.valid_start_timestamp
    successful := raw.result == "SUCCESS"
    chargedTxFee := raw.charged_tx_fee
    memo :=
      match raw.memo_base64 with
      | some s => if s = "" then none else some (atob s)
      | none => none
    transfers := (raw.transfers.getD []).map fun t =>
      { accountId := t.account, amount := t.amount, isApproval := t.is_approval }
    tokenTransfers := (raw.token_transfers.getD []).map fun t =>
      { tokenId := t.token_id, accountId := t.account, amount := t.amount }
    nftTransfers := (raw.nft_transfers.getD []).map fun t =>
      { tokenId := t.token_id, serialNumber := t.serial_number,
        senderAccountId := t.sender_account_id, receiverAccountId := t.receiver_account_id }
    stakingRewardTransfers := (raw.staking_reward_transfers.getD []).map fun t =>
      { accountId := t.account, amount := t.amount } }

/-- Error record thrown by the core (HieroError in errors/index.ts);
`causeMsg` keeps the message of the wrapped cause when one exists. -/
structure HieroError where
  message : String
  code : String
  context : Option String := none
  causeMsg : Option String := none
deriving DecidableEq

/-- Outcome of the raw transport `fetch(url)` call, the external
collaborator of `MirrorNodeClient.fetch`: either the GET itself threw
(`thrown`, with the message of the thrown `Error` when it was one), or a
response with an HTTP status, a status text and a parsed JSON body came
back. -/
inductive TransportOutcome (T : Type) where
  | thrown (causeMsg : Option String)
  | response (status : Nat) (statusText : String) (body : T)
deriving DecidableEq

/-- The WHATWG `Response.ok` flag: status in the 200..299 range. -/
def responseOk (status : Nat) : Bool :=
  200 ≤ status && status ≤ 299

/-- Model of the private `MirrorNodeClient.fetch` helper: transport failure
becomes a `MIRROR_NODE_ERROR`, a non-2xx response becomes a
`MIRROR_NODE_HTTP_ERROR`, and an ok response yields the parsed body. -/
def fetchModel {T : Type} (baseUrl path : String) (outcome : TransportOutcome T) :
    Except HieroError T :=
  match outcome with
  | .thrown causeMsg =>
    .error { message := "Mirror node request failed: " ++ baseUrl ++ path,
             code := "MIRROR_NODE_ERROR", context := some path, causeMsg := causeMsg }
  | .response status statusText body =>
    if responseOk status then .ok body
    else
      .error { message := "Mirror node returned " ++ toString status ++ ": " ++ statusText,
               code := "MIRROR_NODE_HTTP_ERROR", context := some path }

/-- Raw envelope of the transaction-by-id endpoint
(MirrorTransactionListResponse); the list is optional because
`queryTransaction` guards it with `!raw.transactions`. -/
structure MirrorTransactionListResponse where
  transactions : Option (List MirrorTransaction) := none
deriving DecidableEq

/-- Model of `MirrorNodeClient.queryTransaction`: fetch the envelope, fail
with a `NOT_FOUND` error when the item list is absent or empty, otherwise
convert the first item. -/
def queryTransactionModel (atob : String → String) (baseUrl transactionId : String)
    (outcome : TransportOutcome MirrorTransactionListResponse) :
    Except HieroError TransactionInfo :=
  let path := "/api/v1/transactions/" ++ transactionId
  match fetchModel baseUrl path outcome with
  | .error e => .error e
  | .ok raw =>
    match raw.transactions with
    | none =>
      .error { message := "Transaction not found: " ++ transactionId, code := "NOT_FOUND" }
    | some [] =>
      .error { message := "Transaction not found: " ++ transactionId, code := "NOT_FOUND" }
    | some (t :: _) => .ok (convertTransactionInfo atob t)

/-! ### Transaction lifecycle dispatch (HieroContext and the service-call
skeleton of NftClient.createNftType / FileClient.createFile)

The single-threaded event loop is modelled by an explicit natural-number
clock: awaiting a hook or the ledger call advances the clock by that
operation's duration.  `Date.now()` reads the clock.  A hook of a listener
is modelled by its duration and whether it throws; a listener without a
hook carries `none`. -/

/-- Dispatch phase of a listener hook. -/
inductive Phase where
  | beforePhase
  | afterPhase
deriving DecidableEq

/-- Observable behaviour of one listener hook: how long the awaited call
takes on the event-loop clock and whether it throws. -/
structure HookSpec where
  durationMs : Nat
  raises : Bool
deriving DecidableEq

/-- Model of a registered TransactionListener
(interceptors/transaction-listener.ts): both hooks are optional; `id`
stands for the object identity used by `removeTransactionListener`. -/
structure TransactionListener where
  id : Nat
  onBeforeTransaction : Option HookSpec := none
  onAfterTransaction : Option HookSpec := none
deriving DecidableEq

/-- Value thrown during a service call: a listener hook's exception, the
ledger operation's exception (an `Error` with a message), or a HieroError
produced by `normalizeError`. -/
inductive CallError where
  | listenerThrown (listenerId : Nat) (phase : Phase)
  | ledgerThrown (message : String)
  | hieroWrapped (code : String) (context : String) (cause : CallError)
deriving DecidableEq

/-- Model of a TransactionEvent (interceptors/transaction-listener.ts);
the timestamp is a clock reading. -/
structure TransactionEvent where
  type : String
  serviceName : String
  methodName : String
  timestamp : Nat
  transactionId : Option String := none
  status : Option String := none
  error : Option CallError := none
  durationMs : Option Nat := none
deriving DecidableEq

/-- One step of the observable dispatch history: a hook call starting with
the event it receives, or a hook call running to completion. -/
inductive TraceEntry where
  | hookStart (phase : Phase) (listenerId : Nat) (event : TransactionEvent)
  | hookEnd (phase : Phase) (listenerId : Nat)
deriving DecidableEq

/-- Model of `HieroContext.addTransactionListener`: push onto the registry. -/
def addTransactionListener (listeners : List TransactionListener)
    (l : TransactionListener) : List TransactionListener :=
  listeners ++ [l]

/-- Model of `HieroContext.removeTransactionListener`: `indexOf` plus
`splice` delete the first occurrence and do nothing when absent. -/
def removeTransactionListener : List TransactionListener → TransactionListener →
    List TransactionListener
  | [], _ => []
  | x :: rest, l => if x = l then rest else x :: removeTransactionListener rest l

/-- Model of `HieroContext.emitBeforeTransaction`: iterate the registry in
order; await each defined `onBeforeTransaction` hook to completion before
the next listener; a throwing hook propagates (the `Except.error`), leaving
the remaining listeners unvisited.  Returns the propagated exception if
any, the clock after the dispatch, and the trace of hook calls. -/
def emitBeforeTransaction (event : TransactionEvent) :
    List TransactionListener → Nat → Except CallError Unit × Nat × List TraceEntry
  | [], clock => (.ok (), clock, [])
  | l :: rest, clock =>
    match l.onBeforeTransaction with
    | none => emitBeforeTransaction event rest clock
    | some h =>
      if h.raises then
        (.error (.listenerThrown l.id .beforePhase), clock + h.durationMs,
          [.hookStart .beforePhase l.id event])
      else
        let r := emitBeforeTransaction event rest (clock + h.durationMs)
        (r.1, r.2.1,
          .hookStart .beforePhase l.id event :: .hookEnd .beforePhase l.id :: r.2.2)

/-- Model of `HieroContext.emitAfterTransaction`, with the same sequential
semantics as the before dispatch but over the `onAfterTransaction` hooks. -/
def emitAfterTransaction (event : TransactionEvent) :
    List TransactionListener → Nat → Except CallError Unit × Nat × List TraceEntry
  | [], clock => (.ok (), clock, [])
  | l :: rest, clock =>
    match l.onAfterTransaction with
    | none => emitAfterTransaction event rest clock
    | some h =>
      if h.raises then
        (.error (.listenerThrown l.id .afterPhase), clock + h.durationMs,
          [.hookStart .afterPhase l.id event])
      else
        let r := emitAfterTransaction event rest (clock + h.durationMs)
        (r.1, r.2.1,
          .hookStart .afterPhase l.id event :: .hookEnd .afterPhase l.id :: r.2.2)

/-- Model of `normalizeError` from errors/index.ts: a HieroError is
returned as-is, anything else is wrapped in a HieroError with code
`SDK_ERROR` (the modelled thrown values carry no SDK status code) and the
given context. -/
def normalizeCallError (e : CallError) (context : String) : CallError :=
  match e with
  | .hieroWrapped code ctx cause => .hieroWrapped code ctx cause
  | other => .hieroWrapped "SDK_ERROR" context other

/-- Decidable equality of Except values, needed to evaluate concrete call
outcomes with `decide`. -/
instance exceptDecEq {ε α : Type} [DecidableEq ε] [DecidableEq α] :
    DecidableEq (Except ε α) := fun a b =>
  match a, b with
  | .ok x, .ok y =>
    if h : x = y then .isTrue (by rw [h]) else .isFalse (by intro hc; cases hc; exact h rfl)
  | .error x, .error y =>
    if h : x = y then .isTrue (by rw [h]) else .isFalse (by intro hc; cases hc; exact h rfl)
  | .ok _, .error _ => .isFalse (by intro hc; cases hc)
  | .error _, .ok _ => .isFalse (by intro hc; cases hc)

/-- Observable behaviour of the external ledger operation between the two
emissions (the `execute`/`getReceipt` block): how long it takes and either
the thrown `Error`'s message or the `(transactionId, status, returnValue)`
triple it produces. -/
structure LedgerOp where
  durationMs : Nat
  outcome : Except String (String × String × String)
deriving DecidableEq

/-- Result of one modelled service call: the value returned or exception
propagated to the caller, the event passed to each `emitBeforeTransaction`
call, the clock value at and the event passed to each
`emitAfterTransaction` call, the hook trace, the clock right after the
before-emission returned (the `const start = Date.now()` sample; `none`
when the before-emission threw), and the final clock. -/
structure CallOutput where
  result : Except CallError String
  beforeEvents : List TransactionEvent
  afterEvents : List (Nat × TransactionEvent)
  trace : List TraceEntry
  beforeEmitEnd : Option Nat
  endClock : Nat
deriving DecidableEq

/-- Model of the ledger-mutating service-call skeleton shared by
`NftClient.createNftType`, `FileClient.createFile` and their siblings:
build the event; `await emitBeforeTransaction(event)` (a throwing before
hook propagates and nothing else runs); `const start = Date.now()`; run the
ledger operation inside `try`; on success emit the after event carrying
`transactionId`, `status` and `durationMs = Date.now() - start` and return
the value; on any exception from the `try` body (the ledger operation or
the success-path after-emission itself) emit an after event carrying the
exception and `durationMs = Date.now() - start`, then rethrow it through
`normalizeError` — unless that second emission itself throws, which
propagates unnormalized. -/
def serviceTransactionCall (eventType serviceName methodName contextStr : String)
    (listeners : List TransactionListener) (op : LedgerOp) (clock0 : Nat) : CallOutput :=
  let event : TransactionEvent :=
    { type := eventType, serviceName := serviceName, methodName := methodName,
      timestamp := clock0 }
  let b := emitBeforeTransaction event listeners clock0
  match b.1 with
  | .error e =>
    { result := .error e, beforeEvents := [event], afterEvents := [], trace := b.2.2,
      beforeEmitEnd := none, endClock := b.2.1 }
  | .ok _ =>
    let start := b.2.1
    match op.outcome with
    | .error msg =>
      let clock2 := start + op.durationMs
      let errEvent : TransactionEvent :=
        { event with error := some (.ledgerThrown msg), durationMs := some (clock2 - start) }
      let a := emitAfterTransaction errEvent listeners clock2
      match a.1 with
      | .ok _ =>
        { result := .error (normalizeCallError (.ledgerThrown msg) contextStr),
          beforeEvents := [event], afterEvents := [(clock2, errEvent)],
          trace := b.2.2 ++ a.2.2, beforeEmitEnd := some start, endClock := a.2.1 }
      | .error e2 =>
        { result := .error e2, beforeEvents := [event], afterEvents := [(clock2, errEvent)],
          trace := b.2.2 ++ a.2.2, beforeEmitEnd := some start, endClock := a.2.1 }
    | .ok (txId, status, value) =>
      let clock2 := start + op.durationMs
      let successEvent : TransactionEvent :=
        { event with transactionId := some txId, status := some status,
                     durationMs := some (clock2 - start) }
      let a := emitAfterTransaction successEvent listeners clock2
      match a.1 with
      | .ok _ =>
        { result := .ok value, beforeEvents := [event], afterEvents := [(clock2, successEvent)],
          trace := b.2.2 ++ a.2.2, beforeEmitEnd := some start, endClock := a.2.1 }
      | .error eAfter =>
        let clock3 := a.2.1
        let errEvent : TransactionEvent :=
          { event with error := some eAfter, durationMs := some (clock3 - start) }
        let a2 := emitAfterTransaction errEvent listeners clock3
        match a2.1 with
        | .ok _ =>
          { result := .error (normalizeCallError eAfter contextStr),
            beforeEvents := [event],
            afterEvents := [(clock2, successEvent), (clock3, errEvent)],
            trace := b.2.2 ++ a.2.2 ++ a2.2.2, beforeEmitEnd := some start,
            endClock := a2.2.1 }
        | .error e2 =>
          { result := .error e2, beforeEvents := [event],
            afterEvents := [(clock2, successEvent), (clock3, errEvent)],
            trace := b.2.2 ++ a.2.2 ++ a2.2.2, beforeEmitEnd := some start,
            endClock := a2.2.1 }

/-- Whether a listener's before hook is defined and throws. -/
def beforeHookRaises (l : TransactionListener) : Bool :=
  match l.onBeforeTransaction with
  | some h => h.raises
  | none => false

/-- Whether a listener's after hook is defined and throws. -/
def afterHookRaises (l : TransactionListener) : Bool :=
  match l.onAfterTransaction with
  | some h => h.raises
  | none => false

/-- Whether an Except value is a success. -/
def exceptIsOk {ε α : Type} : Except ε α → Bool
  | .ok _ => true
  | .error _ => false

/-! ### Singleton lifecycle (HieroContext.initialize / get / reset) -/

/-- Configuration record (HieroConfig in config/index.ts). -/
structure HieroConfig where
  network : String
  operatorId : String
  operatorKey : String
  mirrorNodeUrl : Option String := none
deriving DecidableEq

/-- The SDK client factory chosen by the constructor's network dispatch. -/
inductive SdkClientKind where
  | forMainnet
  | forTestnet
  | forPreviewnet
deriving DecidableEq

/-- A constructed HieroContext instance: the stored configuration, the SDK
client it built, and the operator identity bound to it.  The SDK string
parsers (`AccountId.fromString`, `PrivateKey.fromStringDer`) are external
collaborators and are modelled as carrying the strings through. -/
structure HieroContextInstance where
  config : HieroConfig
  client : SdkClientKind
  operatorAccountId : String
  operatorKey : String
deriving DecidableEq

/-- Model of the private HieroContext constructor: lower-case the network
name, dispatch over the six supported names, and fail with an
`UNSUPPORTED_NETWORK` HieroError otherwise. -/
def constructHieroContext (config : HieroConfig) : Except HieroError HieroContextInstance :=
  let network := jsToLowerCase config.network
  if network == "mainnet" || network == "hedera-mainnet" then
    .ok { config := config, client := .forMainnet,
          operatorAccountId := config.operatorId, operatorKey := config.operatorKey }
  else if network == "testnet" || network == "hedera-testnet" then
    .ok { config := config, client := .forTestnet,
          operatorAccountId := config.operatorId, operatorKey := config.operatorKey }
  else if network == "previewnet" || network == "hedera-previewnet" then
    .ok { config := config, client := .forPreviewnet,
          operatorAccountId := config.operatorId, operatorKey := config.operatorKey }
  else
    .error { message := "Custom networks are not yet supported: \"" ++ network ++ "\"",
             code := "UNSUPPORTED_NETWORK" }

/-- Model of the static `HieroContext.initialize`: the static `instance`
field becomes the explicit state (at most one instance by construction),
`resolveConfigFromEnv()` is the external collaborator `envConfig`.  An
existing instance is returned unchanged and the config argument is ignored;
otherwise the resolved config (argument first, environment second) is
required and the constructor runs, storing the instance only on success. -/
def initializeModel (instanceVar : Option HieroContextInstance)
    (config : Option HieroConfig) (envConfig : Option HieroConfig) :
    Except HieroError HieroContextInstance × Option HieroContextInstance :=
  match instanceVar with
  | some inst => (.ok inst, some inst)
  | none =>
    let resolved : Option HieroConfig :=
      match config with
      | some c => some c
      | none => envConfig
    match resolved with
    | none =>
      (.error { message := "No Hiero configuration found. Provide a config object or set HIERO_NETWORK, HIERO_OPERATOR_ID, and HIERO_OPERATOR_KEY environment variables.",
                code := "MISSING_CONFIG" }, none)
    | some r =>
      match constructHieroContext r with
      | .ok inst => (.ok inst, some inst)
      | .error e => (.error e, none)

/-- Model of the static `HieroContext.get`. -/
def getModel (instanceVar : Option HieroContextInstance) :
    Except HieroError HieroContextInstance :=
  match instanceVar with
  | some inst => .ok inst
  | none =>
    .error { message := "HieroContext has not been initialized. Call HieroContext.initialize() first.",
             code := "NOT_INITIALIZED" }

/-- Model of the static `HieroContext.reset`: drop the singleton reference
(the SDK client close is an external side effect). -/
def resetModel (_instanceVar : Option HieroContextInstance) :
    Option HieroContextInstance :=
  none

/-! ### Concrete sample inputs used to evaluate the theorems on closed data -/

/-- Sample raw custom-fee object holding one fee of each kind. -/
def sampleCustomFees : MirrorCustomFees :=
  { fixed_fees := some [{ amount := 5, collector_account_id := "0.0.9",
                          all_collectors_are_exempt := false }]
    fractional_fees := some [{ numerator := 1, denominator := 10, net_of_transfers := false,
                               collector_account_id := "0.0.9",
                               all_collectors_are_exempt := false }]
    royalty_fees := some [{ numerator := 1, denominator := 20,
                            collector_account_id := "0.0.9",
                            all_collectors_are_exempt := false }] }

/-- Sample raw token response carrying `sampleCustomFees`. -/
def sampleTokenResponse : MirrorTokenResponse :=
  { token_id := "0.0.5", name := "tok", symbol := "TOK", type := "FUNGIBLE_COMMON",
    decimals := "2", total_supply := "10", max_supply := "0",
    treasury_account_id := "0.0.2", deleted := false, custom_fees := some sampleCustomFees }

/-- Sample raw account response whose balance object is entirely absent. -/
def sampleAccountResponse : MirrorAccountResponse :=
  { account := "0.0.12345" }

/-- Sample listener whose before hook takes 5 clock units and returns. -/
def sampleBeforeListener : TransactionListener :=
  { id := 1, onBeforeTransaction := some { durationMs := 5, raises := false } }

/-- Sample ledger operation taking 3 clock units and succeeding. -/
def sampleLedgerOp : LedgerOp :=
  { durationMs := 3, outcome := .ok ("tx1", "SUCCESS", "0.0.100") }

/-- The after event produced by running `sampleLedgerOp` after
`sampleBeforeListener` from clock 0: emitted at clock 8 with a measured
duration of 3 (the ledger time only). -/
def sampleAfterEvent : TransactionEvent :=
  { type := "NftCreate", serviceName := "NftClient", methodName := "createNftType",
    timestamp := 0, transactionId := some "tx1", status := some "SUCCESS",
    durationMs := some 3 }

/-! ## Helper lemmas -/

/-- Folding a push of converted elements onto an accumulator is the
accumulator followed by the mapped list. -/
theorem foldl_push_eq_append_map {α β : Type} (g : α → β) :
    ∀ (l : List α) (init : List β),
      l.foldl (fun acc x => acc ++ [g x]) init = init ++ l.map g := by
  intro l
  induction l with
  | nil => intro init; simp
  | cons x t ih => intro init; simp [List.foldl_cons, ih]

/-! ## C6 -/

/-- C6: the custom-fee conversion of `convertTokenInfo` flattens the three
raw arrays into the fixed fees, then the fractional fees, then the royalty
fees, each list converted elementwise in order, and each converter tags its
output with the matching `type` discriminant; with one fee of each kind the
output is therefore exactly the three entries in the order fixed,
fractional, royalty. -/
theorem convertTokenInfo_customFees_order (raw : MirrorTokenResponse)
    (cf : MirrorCustomFees) (h : raw.custom_fees = some cf) :
    (convertTokenInfo raw).customFees =
      (cf.fixed_fees.getD []).map convertMirrorFixedFee ++
        ((cf.fractional_fees.getD []).map convertMirrorFractionalFee ++
          (cf.royalty_fees.getD []).map convertMirrorRoyaltyFee) ∧
    (∀ f, (convertMirrorFixedFee f).feeType = "fixed") ∧
    (∀ f, (convertMirrorFractionalFee f).feeType = "fractional") ∧
    (∀ f, (convertMirrorRoyaltyFee f).feeType = "royalty") := by
  refine ⟨?_, fun f => rfl, fun f => rfl, fun f => rfl⟩
  simp [convertTokenInfo, h, foldl_push_eq_append_map]

/-- Evaluation of C6 on `sampleTokenResponse`: one fee of each kind yields
exactly three entries tagged fixed, fractional, royalty in that order. -/
theorem convertTokenInfo_customFees_order_witness :
    (convertTokenInfo sampleTokenResponse).customFees.map CustomFee.feeType =
      ["fixed", "fractional", "royalty"] := by
  have h := convertTokenInfo_customFees_order sampleTokenResponse sampleCustomFees rfl
  rw [h.1]
  rfl

/-! ## C10 -/

/-- C10: when the upstream balance object is absent, `convertAccountInfo`
reports balance 0 and `convertBalance` reports 0 hbars with no token
balances; an absent upstream deleted flag converts to `false`; and the
conversions of a missing balance and of an explicit zero balance with no
tokens are indistinguishable. -/
theorem absent_balance_defaults (accountId : String) (raw : MirrorAccountResponse)
    (h : raw.balance = none) :
    (convertAccountInfo raw).balance = 0 ∧
    (convertBalance accountId raw).hbars = 0 ∧
    (convertBalance accountId raw).tokens = [] ∧
    (raw.deleted = none → (convertAccountInfo raw).deleted = false) ∧
    convertAccountInfo raw =
      convertAccountInfo { raw with balance := some { balance := 0, tokens := [] } } ∧
    convertBalance accountId raw =
      convertBalance accountId { raw with balance := some { balance := 0, tokens := [] } } := by
  refine ⟨?_, ?_, ?_, ?_, ?_, ?_⟩
  · simp [convertAccountInfo, h]
  · simp [convertBalance, h]
  · simp [convertBalance, h]
  · intro h2; simp [convertAccountInfo, h2]
  · simp [convertAccountInfo, h]
  · simp [convertBalance, h]

/-- Evaluation of C10 on `sampleAccountResponse` (no balance object, no
deleted flag): converted balance and hbars are 0 and deleted is false. -/
theorem absent_balance_defaults_witness :
    (convertAccountInfo sampleAccountResponse).balance = 0 ∧
    (convertBalance "0.0.12345" sampleAccountResponse).hbars = 0 ∧
    (convertAccountInfo sampleAccountResponse).deleted = false := by
  have h := absent_balance_defaults "0.0.12345" sampleAccountResponse rfl
  exact ⟨h.1, h.2.1, h.2.2.2.1 rfl⟩

/-! ## C8 -/

/-- C8: when the first `initialize` call succeeds and stores an instance,
a second `initialize` call with any other configuration returns the very
same instance and leaves the state unchanged, and the stored instance is
configured from the first call's configuration only (the model's state is
an `Option`, so at most one instance exists between initialize and reset by
construction). -/
theorem initialize_idempotent (c₁ c₂ : HieroConfig) (env : Option HieroConfig)
    (inst : HieroContextInstance) (h : constructHieroContext c₁ = .ok inst) :
    initializeModel none (some c₁) env = (.ok inst, some inst) ∧
    initializeModel (some inst) (some c₂) env = (.ok inst, some inst) ∧
    inst.config = c₁ := by
  refine ⟨?_, rfl, ?_⟩
  · simp [initializeModel, h]
  · simp only [constructHieroContext] at h
    split at h
    · cases h; rfl
    · split at h
      · cases h; rfl
      · split at h
        · cases h; rfl
        · cases h

/-- Evaluation of C8: initializing with a testnet configuration, then
initializing again with a mainnet configuration, returns the first instance
both times and keeps the first configuration. -/
theorem initialize_idempotent_witness :
    (initializeModel (some { config := { network := "testnet", operatorId := "0.0.2", operatorKey := "k1" },
                             client := .forTestnet, operatorAccountId := "0.0.2", operatorKey := "k1" })
        (some { network := "mainnet", operatorId := "0.0.3", operatorKey := "k2" }) none).1 =
      .ok { config := { network := "testnet", operatorId := "0.0.2", operatorKey := "k1" },
            client := .forTestnet, operatorAccountId := "0.0.2", operatorKey := "k1" } := by
  have h := initialize_idempotent { network := "testnet", operatorId := "0.0.2", operatorKey := "k1" }
      { network := "mainnet", operatorId := "0.0.3", operatorKey := "k2" } none
      { config := { network := "testnet", operatorId := "0.0.2", operatorKey := "k1" },
        client := .forTestnet, operatorAccountId := "0.0.2", operatorKey := "k1" }
      (by rfl)
  rw [h.2.1]

/-! ## C9 -/

/-- C9: `queryTransaction` against a transport that completes with a
successful status but an empty or absent `transactions` list fails with the
`NOT_FOUND` protocol error (never a value); and every failure it can surface
is one `HieroError` whose code distinguishes the transport kind
(`MIRROR_NODE_ERROR`, exactly when the GET itself threw) from the protocol
kind (`MIRROR_NODE_HTTP_ERROR` for a non-2xx status, `NOT_FOUND` for an
empty envelope on a successful status). -/
theorem queryTransaction_error_spec (atob : String → String)
    (baseUrl transactionId : String)
    (outcome : TransportOutcome MirrorTransactionListResponse) :
    (∀ status statusText raw, responseOk status = true →
      (raw.transactions = none ∨ raw.transactions = some []) →
      queryTransactionModel atob baseUrl transactionId (.response status statusText raw) =
        .error { message := "Transaction not found: " ++ transactionId, code := "NOT_FOUND" }) ∧
    (∀ e, queryTransactionModel atob baseUrl transactionId outcome = .error e →
      (e.code = "MIRROR_NODE_ERROR" ∧ ∃ m, outcome = .thrown m) ∨
      (e.code = "MIRROR_NODE_HTTP_ERROR" ∧
        ∃ s st b, outcome = .response s st b ∧ responseOk s = false) ∨
      (e.code = "NOT_FOUND" ∧
        ∃ s st b, outcome = .response s st b ∧ responseOk s = true ∧
          (b.transactions = none ∨ b.transactions = some []))) := by
  constructor
  · intro status statusText raw hok hempty
    rcases hempty with h | h <;> simp [queryTransactionModel, fetchModel, hok, h]
  · intro e he
    cases outcome with
    | thrown m =>
      left
      simp only [queryTransactionModel, fetchModel] at he
      cases he
      exact ⟨rfl, m, rfl⟩
    | response s st b =>
      cases hok : responseOk s with
      | false =>
        right; left
        simp only [queryTransactionModel, fetchModel, hok] at he
        simp only [Bool.false_eq_true, if_false] at he
        cases he
        exact ⟨rfl, s, st, b, rfl, hok⟩
      | true =>
        right; right
        simp only [queryTransactionModel, fetchModel, hok, if_true] at he
        cases hts : b.transactions with
        | none =>
          simp only [hts] at he
          cases he
          exact ⟨rfl, s, st, b, rfl, hok, Or.inl hts⟩
        | some ts =>
          cases ts with
          | nil =>
            simp only [hts] at he
            cases he
            exact ⟨rfl, s, st, b, rfl, hok, Or.inr hts⟩
          | cons t rest =>
            simp only [hts] at he
            cases he

/-- Evaluation of C9: looking up a transaction id when the transport
returns status 200 with an empty transactions list yields exactly the
`NOT_FOUND` error. -/
theorem queryTransaction_error_spec_witness :
    queryTransactionModel (fun s => s) "https://testnet.mirrornode.hedera.com"
      "0.0.1@1700000000.000000000" (.response 200 "OK" { transactions := some [] }) =
      .error { message := "Transaction not found: " ++ "0.0.1@1700000000.000000000",
               code := "NOT_FOUND" } := by
  have h := queryTransaction_error_spec (fun s => s) "https://testnet.mirrornode.hedera.com"
      "0.0.1@1700000000.000000000" (.response 200 "OK" { transactions := some [] })
  exact h.1 200 "OK" { transactions := some [] } (by decide) (Or.inr rfl)

/-! ## C4 and C5: pagination lemmas -/

/-- A successful field lookup means the pair occurs in the field list. -/
theorem lookupField_mem {TRaw : Type} :
    ∀ (fields : List (String × PageField TRaw)) (k : String) (v : PageField TRaw),
      lookupField fields k = some v → (k, v) ∈ fields := by
  intro fields
  induction fields with
  | nil => intro k v h; simp [lookupField] at h
  | cons kv rest ih =>
    intro k v h
    obtain ⟨k0, v0⟩ := kv
    by_cases hk : k = k0
    · subst hk
      simp [lookupField] at h
      subst h
      exact List.mem_cons_self _ _
    · simp [lookupField, hk] at h
      exact List.mem_cons_of_mem _ (ih k v h)

/-- Looking a key up past a head pair with a different key skips the head. -/
theorem lookupField_cons_of_ne {TRaw : Type} (k0 : String) (v0 : PageField TRaw)
    (rest : List (String × PageField TRaw)) (key : String) (h : key ≠ k0) :
    lookupField ((k0, v0) :: rest) key = lookupField rest key := by
  simp [lookupField, h]

/-- Two predicates that agree on a list find the same first element. -/
theorem find?_congr_on {α : Type} (p q : α → Bool) :
    ∀ l : List α, (∀ x ∈ l, p x = q x) → l.find? p = l.find? q := by
  intro l
  induction l with
  | nil => intro _; rfl
  | cons x t ih =>
    intro h
    have hx := h x (List.mem_cons_self x t)
    cases hq : q x with
    | true =>
      rw [List.find?_cons_of_pos _ (hx.trans hq), List.find?_cons_of_pos _ hq]
    | false =>
      rw [List.find?_cons_of_neg _ (by simp [hx, hq]), List.find?_cons_of_neg _ (by simp [hq])]
      exact ih fun y hy => h y (List.mem_cons_of_mem x hy)

/-- When the qualifying keys of a duplicate-free raw object are exactly one
array-valued pair, the key scan of `convertPage` finds that key and the
lookup of that key yields that array. -/
theorem dataKey_find_of_filter_singleton {TRaw : Type} :
    ∀ (fields : List (String × PageField TRaw)) (k : String) (xs : List TRaw),
      (fields.map Prod.fst).Nodup →
      fields.filter qualifies = [(k, PageField.arrayVal xs)] →
      (fields.map Prod.fst).find? (fun key =>
          key != "links" &&
            (match lookupField fields key with
             | some f => fieldIsArray f
             | none => false)) = some k ∧
      lookupField fields k = some (PageField.arrayVal xs) := by
  intro fields
  induction fields with
  | nil => intro k xs _ hf; simp at hf
  | cons kv rest ih =>
    intro k xs hnd hf
    obtain ⟨k0, v0⟩ := kv
    simp only [List.map_cons, List.nodup_cons] at hnd
    obtain ⟨hnd0, hndr⟩ := hnd
    have hlk0 : lookupField ((k0, v0) :: rest) k0 = some v0 := by
      simp [lookupField]
    by_cases hq : qualifies (k0, v0) = true
    · rw [List.filter_cons_of_pos hq] at hf
      obtain ⟨hpair, -⟩ := List.cons_eq_cons.mp hf
      obtain ⟨hk0, hv0⟩ := Prod.mk.injEq .. |>.mp hpair
      subst hk0
      constructor
      · apply List.find?_cons_of_pos
        show (k0 != "links" &&
          (match lookupField ((k0, v0) :: rest) k0 with
           | some f => fieldIsArray f
           | none => false)) = true
        rw [hlk0]
        simp only [qualifies] at hq
        exact hq
      · rw [hlk0, hv0]
    · rw [List.filter_cons_of_neg (by simpa using hq)] at hf
      have hmem : (k, PageField.arrayVal xs) ∈ rest :=
        List.mem_of_mem_filter (hf ▸ List.mem_singleton_self _)
      have hkne : k ≠ k0 := by
        intro hkk
        exact hnd0 (hkk ▸ List.mem_map_of_mem Prod.fst hmem)
      obtain ⟨ihf, ihl⟩ := ih k xs hndr hf
      constructor
      · have hp0 : ¬((fun key =>
            key != "links" &&
              (match lookupField ((k0, v0) :: rest) key with
               | some f => fieldIsArray f
               | none => false)) k0 = true) := by
          intro hcontra
          simp only [hlk0] at hcontra
          exact hq (by simpa [qualifies] using hcontra)
        have hmapcons : List.map Prod.fst ((k0, v0) :: rest) = k0 :: List.map Prod.fst rest := rfl
        have hstep : List.find? (fun key =>
            key != "links" &&
              (match lookupField ((k0, v0) :: rest) key with
               | some f => fieldIsArray f
               | none => false)) (k0 :: List.map Prod.fst rest) =
          List.find? (fun key =>
            key != "links" &&
              (match lookupField ((k0, v0) :: rest) key with
               | some f => fieldIsArray f
               | none => false)) (List.map Prod.fst rest) :=
          List.find?_cons_of_neg _ hp0
        rw [hmapcons, hstep]
        rw [find?_congr_on _ _ (rest.map Prod.fst) fun key hkey => by
          have hne : key ≠ k0 := fun hkk => hnd0 (hkk ▸ hkey)
          rw [lookupField_cons_of_ne k0 v0 rest key hne]]
        exact ihf
      · rw [lookupField_cons_of_ne k0 v0 rest k hkne]
        exact ihl

/-- When no top-level non-`links` key holds an array, the key scan of
`convertPage` finds nothing. -/
theorem dataKey_none_of_filter_nil {TRaw : Type}
    (fields : List (String × PageField TRaw))
    (hf : fields.filter qualifies = []) :
    (fields.map Prod.fst).find? (fun key =>
        key != "links" &&
          (match lookupField fields key with
           | some f => fieldIsArray f
           | none => false)) = none := by
  rw [List.find?_eq_none]
  intro key _ hp
  rcases hlk : lookupField fields key with _ | f
  · rw [hlk] at hp
    simp at hp
  · rw [hlk] at hp
    have hmem := lookupField_mem fields key f hlk
    have hq : qualifies (key, f) = true := by
      simp only [Bool.and_eq_true] at hp
      simp [qualifies, hp.1, hp.2]
    have hmf : (key, f) ∈ fields.filter qualifies := List.mem_filter.mpr ⟨hmem, hq⟩
    rw [hf] at hmf
    simp at hmf

/-- C4: on a duplicate-free raw page object with exactly one non-`links`
array key, `convertPage` returns that array converted elementwise in
upstream order (so the lengths agree); and with zero such keys it returns
an empty data sequence, not an error. -/
theorem convertPage_data_spec {TRaw TOut : Type} (raw : RawPage TRaw) (conv : TRaw → TOut) :
    ((raw.fields.map Prod.fst).Nodup →
      ∀ k xs, raw.fields.filter qualifies = [(k, PageField.arrayVal xs)] →
      (convertPage raw conv).data = xs.map conv) ∧
    (raw.fields.filter qualifies = [] → (convertPage raw conv).data = []) := by
  constructor
  · intro hnd k xs hf
    obtain ⟨hfind, hlk⟩ := dataKey_find_of_filter_singleton raw.fields k xs hnd hf
    simp [convertPage, dataKeyOf, hfind, hlk]
  · intro hf
    have hfind := dataKey_none_of_filter_nil raw.fields hf
    simp [convertPage, dataKeyOf, hfind]

/-- Evaluation of C4: a page with one `nfts` array of three items converts
to the three items, mapped in order. -/
theorem convertPage_data_spec_witness :
    (convertPage { fields := [("nfts", PageField.arrayVal [1, 2, 3]),
                              ("links", PageField.linksObj none)] }
        fun n => n + 1).data = [1, 2, 3].map (fun n => n + 1) :=
  (convertPage_data_spec
      { fields := [("nfts", PageField.arrayVal [1, 2, 3]),
                   ("links", PageField.linksObj none)] }
      (fun n => n + 1)).1 (by decide) "nfts" [1, 2, 3] (by decide)

/-- C5 (amended): the `next` of the converted page is absent exactly when
the raw `links` key is absent, not an object of the links shape, or has a
null/absent `next`; when `links.next` is a string it is carried through
unchanged — including the empty string, which therefore comes out as a
present (empty) next link rather than an absent one. -/
theorem convertPage_next_spec {TRaw TOut : Type} (raw : RawPage TRaw) (conv : TRaw → TOut) :
    ((convertPage raw conv).links.next = none ↔
      ∀ s, lookupField raw.fields "links" ≠ some (PageField.linksObj (some s))) ∧
    (∀ s, lookupField raw.fields "links" = some (PageField.linksObj (some s)) →
      (convertPage raw conv).links.next = some s) := by
  have hnext : (convertPage raw conv).links.next = linksNextOf raw := rfl
  constructor
  · rw [hnext]
    unfold linksNextOf
    rcases h : lookupField raw.fields "links" with _ | f
    · simp
    · cases f with
      | arrayVal xs => simp
      | otherVal => simp
      | linksObj n =>
        cases n with
        | none => simp
        | some s =>
          constructor
          · intro hc; cases hc
          · intro hall; exact absurd rfl (hall s)
  · intro s h
    rw [hnext]
    unfold linksNextOf
    rw [h]

/-- Evaluation of C5 (amended) on a page whose `links.next` is a relative
path: the converted `next` carries the path through. -/
theorem convertPage_next_spec_witness :
    (convertPage { fields := [("transactions", PageField.arrayVal [0]),
                              ("links", PageField.linksObj (some "/api/v1/transactions?page=2"))] }
        fun (n : Nat) => n).links.next = some "/api/v1/transactions?page=2" :=
  (convertPage_next_spec
      { fields := [("transactions", PageField.arrayVal [0]),
                   ("links", PageField.linksObj (some "/api/v1/transactions?page=2"))] }
      (fun (n : Nat) => n)).2 "/api/v1/transactions?page=2" (by decide)

/-- Counterexample to C5 as stated: when the upstream `links.next` is the
empty string, `convertPage` returns `next` as a present empty string, not
as absent — the empty string is passed through `?? null` untouched. -/
theorem convertPage_empty_string_next_counterexample :
    (convertPage { fields := [("links", PageField.linksObj (some ""))] }
        fun (n : Nat) => n).links.next = some "" ∧
    (some "" : Option String) ≠ none := ⟨rfl, by decide⟩

/-! ## Dispatch lemmas -/

/-- A before-dispatch completes without exception exactly when no listener
has a throwing before hook. -/
theorem emitBefore_result_ok_iff (ev : TransactionEvent) :
    ∀ (ls : List TransactionListener) (c : Nat),
      (emitBeforeTransaction ev ls c).1 = Except.ok () ↔ ls.any beforeHookRaises = false := by
  intro ls
  induction ls with
  | nil => intro c; simp [emitBeforeTransaction]
  | cons l rest ih =>
    intro c
    cases hb : l.onBeforeTransaction with
    | none => simp [emitBeforeTransaction, hb, beforeHookRaises, ih c]
    | some h =>
      cases hr : h.raises with
      | true => simp [emitBeforeTransaction, hb, hr, beforeHookRaises]
      | false => simp [emitBeforeTransaction, hb, hr, beforeHookRaises, ih (c + h.durationMs)]

/-- An after-dispatch completes without exception exactly when no listener
has a throwing after hook. -/
theorem emitAfter_result_ok_iff (ev : TransactionEvent) :
    ∀ (ls : List TransactionListener) (c : Nat),
      (emitAfterTransaction ev ls c).1 = Except.ok () ↔ ls.any afterHookRaises = false := by
  intro ls
  induction ls with
  | nil => intro c; simp [emitAfterTransaction]
  | cons l rest ih =>
    intro c
    cases hb : l.onAfterTransaction with
    | none => simp [emitAfterTransaction, hb, afterHookRaises, ih c]
    | some h =>
      cases hr : h.raises with
      | true => simp [emitAfterTransaction, hb, hr, afterHookRaises]
      | false => simp [emitAfterTransaction, hb, hr, afterHookRaises, ih (c + h.durationMs)]

/-- A throwing before hook makes the before-dispatch behave as if the
listeners registered after it were absent, and the propagated exception is
that listener's. -/
theorem emitBefore_raise_stops (ev : TransactionEvent) (l : TransactionListener)
    (h : HookSpec) (hhook : l.onBeforeTransaction = some h) (hraise : h.raises = true) :
    ∀ (l₁ l₂ : List TransactionListener) (c : Nat),
      (∀ x ∈ l₁, beforeHookRaises x = false) →
      emitBeforeTransaction ev (l₁ ++ l :: l₂) c = emitBeforeTransaction ev (l₁ ++ [l]) c ∧
      (emitBeforeTransaction ev (l₁ ++ [l]) c).1 =
        Except.error (CallError.listenerThrown l.id Phase.beforePhase) := by
  intro l₁
  induction l₁ with
  | nil =>
    intro l₂ c _
    constructor
    · simp [emitBeforeTransaction, hhook, hraise]
    · simp [emitBeforeTransaction, hhook, hraise]
  | cons x rest ih =>
    intro l₂ c hx
    have hxr : beforeHookRaises x = false := hx x (List.mem_cons_self _ _)
    have hrest : ∀ y ∈ rest, beforeHookRaises y = false :=
      fun y hy => hx y (List.mem_cons_of_mem _ hy)
    cases hxb : x.onBeforeTransaction with
    | none =>
      constructor
      · show emitBeforeTransaction ev (x :: (rest ++ l :: l₂)) c =
          emitBeforeTransaction ev (x :: (rest ++ [l])) c
        simp only [emitBeforeTransaction, hxb]
        exact (ih l₂ c hrest).1
      · show (emitBeforeTransaction ev (x :: (rest ++ [l])) c).1 = _
        simp only [emitBeforeTransaction, hxb]
        exact (ih l₂ c hrest).2
    | some hx2 =>
      have hx2r : hx2.raises = false := by
        have hcopy := hxr
        simp [beforeHookRaises, hxb] at hcopy
        exact hcopy
      constructor
      · show emitBeforeTransaction ev (x :: (rest ++ l :: l₂)) c =
          emitBeforeTransaction ev (x :: (rest ++ [l])) c
        simp only [emitBeforeTransaction, hxb, hx2r, Bool.false_eq_true, if_false]
        rw [(ih l₂ (c + hx2.durationMs) hrest).1]
      · show (emitBeforeTransaction ev (x :: (rest ++ [l])) c).1 = _
        simp only [emitBeforeTransaction, hxb, hx2r, Bool.false_eq_true, if_false]
        exact (ih l₂ (c + hx2.durationMs) hrest).2

/-- A throwing after hook makes the after-dispatch behave as if the
listeners registered after it were absent, and the propagated exception is
that listener's. -/
theorem emitAfter_raise_stops (ev : TransactionEvent) (l : TransactionListener)
    (h : HookSpec) (hhook : l.onAfterTransaction = some h) (hraise : h.raises = true) :
    ∀ (l₁ l₂ : List TransactionListener) (c : Nat),
      (∀ x ∈ l₁, afterHookRaises x = false) →
      emitAfterTransaction ev (l₁ ++ l :: l₂) c = emitAfterTransaction ev (l₁ ++ [l]) c ∧
      (emitAfterTransaction ev (l₁ ++ [l]) c).1 =
        Except.error (CallError.listenerThrown l.id Phase.afterPhase) := by
  intro l₁
  induction l₁ with
  | nil =>
    intro l₂ c _
    constructor
    · simp [emitAfterTransaction, hhook, hraise]
    · simp [emitAfterTransaction, hhook, hraise]
  | cons x rest ih =>
    intro l₂ c hx
    have hxr : afterHookRaises x = false := hx x (List.mem_cons_self _ _)
    have hrest : ∀ y ∈ rest, afterHookRaises y = false :=
      fun y hy => hx y (List.mem_cons_of_mem _ hy)
    cases hxb : x.onAfterTransaction with
    | none =>
      constructor
      · show emitAfterTransaction ev (x :: (rest ++ l :: l₂)) c =
          emitAfterTransaction ev (x :: (rest ++ [l])) c
        simp only [emitAfterTransaction, hxb]
        exact (ih l₂ c hrest).1
      · show (emitAfterTransaction ev (x :: (rest ++ [l])) c).1 = _
        simp only [emitAfterTransaction, hxb]
        exact (ih l₂ c hrest).2
    | some hx2 =>
      have hx2r : hx2.raises = false := by
        have hcopy := hxr
        simp [afterHookRaises, hxb] at hcopy
        exact hcopy
      constructor
      · show emitAfterTransaction ev (x :: (rest ++ l :: l₂)) c =
          emitAfterTransaction ev (x :: (rest ++ [l])) c
        simp only [emitAfterTransaction, hxb, hx2r, Bool.false_eq_true, if_false]
        rw [(ih l₂ (c + hx2.durationMs) hrest).1]
      · show (emitAfterTransaction ev (x :: (rest ++ [l])) c).1 = _
        simp only [emitAfterTransaction, hxb, hx2r, Bool.false_eq_true, if_false]
        exact (ih l₂ (c + hx2.durationMs) hrest).2

/-! ## C7 -/

/-- C7: with listeners registered in the order L1, L2 (both before hooks
defined and non-throwing), a before-dispatch runs L1's hook to completion
before L2's hook starts — the trace is exactly start L1, end L1, start L2,
end L2; and after removing L1, a before-dispatch invokes only L2's hook. -/
theorem listener_order_and_removal (l₁ l₂ : TransactionListener) (h₁ h₂ : HookSpec)
    (ev : TransactionEvent) (c : Nat)
    (hb₁ : l₁.onBeforeTransaction = some h₁) (hr₁ : h₁.raises = false)
    (hb₂ : l₂.onBeforeTransaction = some h₂) (hr₂ : h₂.raises = false) :
    (emitBeforeTransaction ev (addTransactionListener (addTransactionListener [] l₁) l₂) c).2.2 =
      [TraceEntry.hookStart Phase.beforePhase l₁.id ev, TraceEntry.hookEnd Phase.beforePhase l₁.id,
       TraceEntry.hookStart Phase.beforePhase l₂.id ev,
       TraceEntry.hookEnd Phase.beforePhase l₂.id] ∧
    (emitBeforeTransaction ev
        (removeTransactionListener (addTransactionListener (addTransactionListener [] l₁) l₂) l₁)
        c).2.2 =
      [TraceEntry.hookStart Phase.beforePhase l₂.id ev,
       TraceEntry.hookEnd Phase.beforePhase l₂.id] := by
  have hadd : addTransactionListener (addTransactionListener [] l₁) l₂ = [l₁, l₂] := rfl
  constructor
  · rw [hadd]
    simp [emitBeforeTransaction, hb₁, hr₁, hb₂, hr₂]
  · rw [hadd]
    have hrem : removeTransactionListener [l₁, l₂] l₁ = [l₂] := by
      simp [removeTransactionListener]
    rw [hrem]
    simp [emitBeforeTransaction, hb₂, hr₂]

/-- Evaluation of C7 on two concrete listeners with ids 1 and 2. -/
theorem listener_order_and_removal_witness :
    (emitBeforeTransaction { type := "t", serviceName := "s", methodName := "m", timestamp := 0 }
        (removeTransactionListener
          (addTransactionListener
            (addTransactionListener []
              { id := 1, onBeforeTransaction := some { durationMs := 2, raises := false } })
            { id := 2, onBeforeTransaction := some { durationMs := 3, raises := false } })
          { id := 1, onBeforeTransaction := some { durationMs := 2, raises := false } }) 0).2.2 =
      [TraceEntry.hookStart Phase.beforePhase 2
        { type := "t", serviceName := "s", methodName := "m", timestamp := 0 },
       TraceEntry.hookEnd Phase.beforePhase 2] := by
  have h := listener_order_and_removal
      { id := 1, onBeforeTransaction := some { durationMs := 2, raises := false } }
      { id := 2, onBeforeTransaction := some { durationMs := 3, raises := false } }
      { durationMs := 2, raises := false } { durationMs := 3, raises := false }
      { type := "t", serviceName := "s", methodName := "m", timestamp := 0 } 0
      rfl rfl rfl rfl
  exact h.2

/-! ## C2 -/

/-- C2 (amended): when no before hook throws, `emitAfterTransaction` is
invoked exactly once per call whenever the ledger operation fails, and
whenever it succeeds and no after hook throws; but when the ledger
operation succeeds and some after hook throws during the success-path
dispatch, the catch block invokes `emitAfterTransaction` a second time —
two invocations, not one. -/
theorem emitAfter_invocation_count (ty sn mn cs : String) (ls : List TransactionListener)
    (op : LedgerOp) (c0 : Nat) (hb : ls.any beforeHookRaises = false) :
    (serviceTransactionCall ty sn mn cs ls op c0).afterEvents.length =
      if exceptIsOk op.outcome && ls.any afterHookRaises then 2 else 1 := by
  have hok := (emitBefore_result_ok_iff
      { type := ty, serviceName := sn, methodName := mn, timestamp := c0 } ls c0).mpr hb
  simp only [serviceTransactionCall]
  split
  · rename_i e he
    rw [hok] at he
    cases he
  · split
    · rename_i msg hmsg
      split <;> simp [hmsg, exceptIsOk]
    · rename_i txId status value hop
      split
      · rename_i u hu
        cases u
        have haf : ls.any afterHookRaises = false :=
          (emitAfter_result_ok_iff _ ls _).mp hu
        simp [hop, exceptIsOk, haf]
      · rename_i e2 he2
        have haf : ls.any afterHookRaises = true := by
          cases hcon : ls.any afterHookRaises with
          | false =>
            rw [(emitAfter_result_ok_iff _ ls _).mpr hcon] at he2
            exact Except.noConfusion he2
          | true => rfl
        split <;> simp [hop, exceptIsOk, haf]

/-- Counterexample to C2 as stated: with one listener whose after hook
throws, a succeeding ledger call leads to two `emitAfterTransaction`
invocations (the success-path one and the catch-path one), not one. -/
theorem emitAfter_once_counterexample :
    (serviceTransactionCall "NftCreate" "NftClient" "createNftType" "NftClient.createNftType"
        [{ id := 1, onAfterTransaction := some { durationMs := 0, raises := true } }]
        { durationMs := 0, outcome := .ok ("tx", "SUCCESS", "0.0.100") } 0).afterEvents.length = 2 ∧
    (2 : Nat) ≠ 1 := ⟨rfl, by decide⟩

/-- Evaluation of C2 (amended): with a non-throwing after listener, a
failing ledger call still produces exactly one after-emission. -/
theorem emitAfter_invocation_count_witness :
    (serviceTransactionCall "FileCreate" "FileClient" "createFile" "FileClient.createFile"
        [{ id := 1, onAfterTransaction := some { durationMs := 1, raises := false } }]
        { durationMs := 2, outcome := .error "boom" } 0).afterEvents.length = 1 := by
  have h := emitAfter_invocation_count "FileCreate" "FileClient" "createFile"
      "FileClient.createFile"
      [{ id := 1, onAfterTransaction := some { durationMs := 1, raises := false } }]
      { durationMs := 2, outcome := .error "boom" } 0 (by decide)
  simpa [exceptIsOk] using h

/-! ## C1 -/

/-- C1 (amended): `durationMs` on every after-dispatch event equals the
elapsed clock from immediately after the before-emission returned (the
`const start = Date.now()` sample, which runs only once the before-phase
listener hooks have completed) to immediately before that after-emission —
so it excludes, rather than includes, the before-phase listener latency. -/
theorem durationMs_measured_from_after_before_emission
    (ty sn mn cs : String) (ls : List TransactionListener) (op : LedgerOp) (c0 : Nat) :
    ∀ p ∈ (serviceTransactionCall ty sn mn cs ls op c0).afterEvents,
      ∃ s, (serviceTransactionCall ty sn mn cs ls op c0).beforeEmitEnd = some s ∧
        p.2.durationMs = some (p.1 - s) := by
  simp only [serviceTransactionCall]
  split
  · simp
  · split
    · split
      all_goals
        intro p hp
        simp only [List.mem_singleton] at hp
        subst hp
        exact ⟨_, rfl, rfl⟩
    · split
      · intro p hp
        simp only [List.mem_singleton] at hp
        subst hp
        exact ⟨_, rfl, rfl⟩
      · split
        all_goals
          intro p hp
          simp only [List.mem_cons, List.mem_singleton, List.not_mem_nil, or_false] at hp
          rcases hp with rfl | rfl <;> exact ⟨_, rfl, rfl⟩

/-- Counterexample to C1 as stated: from clock 0, a before hook of 5 units
and a ledger operation of 3 units lead to an after-emission at clock 8
whose event carries `durationMs = 3` (ledger time only), not the 8 units
elapsed since immediately before the before-emission. -/
theorem durationMs_claim_counterexample :
    ((serviceTransactionCall "NftCreate" "NftClient" "createNftType" "NftClient.createNftType"
        [sampleBeforeListener] sampleLedgerOp 0).afterEvents.map
      fun p => (p.1, p.2.durationMs)) = [(8, some 3)] ∧
    ¬((8 : Nat) - 0 = 3) := ⟨rfl, by decide⟩

/-- Evaluation of C1 (amended) on the sample scenario: the after event at
clock 8 carries `durationMs = 8 - 5`, measured from the clock value 5 at
which the before-emission returned. -/
theorem durationMs_measured_witness :
    sampleAfterEvent.durationMs = some (8 - 5) := by
  obtain ⟨s, hs, hd⟩ := durationMs_measured_from_after_before_emission "NftCreate" "NftClient"
      "createNftType" "NftClient.createNftType" [sampleBeforeListener] sampleLedgerOp 0
      (8, sampleAfterEvent) (by decide)
  have h0 : (serviceTransactionCall "NftCreate" "NftClient" "createNftType"
      "NftClient.createNftType" [sampleBeforeListener] sampleLedgerOp 0).beforeEmitEnd =
      some 5 := by decide
  rw [h0] at hs
  cases hs
  exact hd

/-! ## C3 -/

/-- C3 (amended): a listener exception is not caught by the dispatcher: a
throwing hook makes the dispatch of its phase behave as if the listeners
registered after it were absent (they are never invoked) and the exception
propagates out of the dispatch; however it does abort the overall ledger
call — a before-phase throw makes the service call fail with that very
exception before any after-emission, and an after-phase throw on a
succeeding ledger operation makes the service call fail instead of
returning the ledger result. -/
theorem listener_exception_propagation :
    (∀ (ev : TransactionEvent) (l : TransactionListener) (h : HookSpec)
        (l₁ l₂ : List TransactionListener) (c : Nat),
      l.onBeforeTransaction = some h → h.raises = true →
      (∀ x ∈ l₁, beforeHookRaises x = false) →
      emitBeforeTransaction ev (l₁ ++ l :: l₂) c = emitBeforeTransaction ev (l₁ ++ [l]) c ∧
      (emitBeforeTransaction ev (l₁ ++ l :: l₂) c).1 =
        Except.error (CallError.listenerThrown l.id Phase.beforePhase)) ∧
    (∀ (ev : TransactionEvent) (l : TransactionListener) (h : HookSpec)
        (l₁ l₂ : List TransactionListener) (c : Nat),
      l.onAfterTransaction = some h → h.raises = true →
      (∀ x ∈ l₁, afterHookRaises x = false) →
      emitAfterTransaction ev (l₁ ++ l :: l₂) c = emitAfterTransaction ev (l₁ ++ [l]) c ∧
      (emitAfterTransaction ev (l₁ ++ l :: l₂) c).1 =
        Except.error (CallError.listenerThrown l.id Phase.afterPhase)) ∧
    (∀ (ty sn mn cs : String) (ls : List TransactionListener) (op : LedgerOp) (c0 : Nat),
      ls.any beforeHookRaises = true →
      ∃ e, (serviceTransactionCall ty sn mn cs ls op c0).result = Except.error e ∧
        (serviceTransactionCall ty sn mn cs ls op c0).afterEvents = []) ∧
    (∀ (ty sn mn cs : String) (ls : List TransactionListener) (op : LedgerOp) (c0 : Nat)
        (txId status value : String),
      ls.any beforeHookRaises = false → ls.any afterHookRaises = true →
      op.outcome = .ok (txId, status, value) →
      ∃ e, (serviceTransactionCall ty sn mn cs ls op c0).result = Except.error e) := by
  refine ⟨?_, ?_, ?_, ?_⟩
  · intro ev l h l₁ l₂ c hhook hraise hbenign
    obtain ⟨heq, herr⟩ := emitBefore_raise_stops ev l h hhook hraise l₁ l₂ c hbenign
    exact ⟨heq, heq ▸ herr⟩
  · intro ev l h l₁ l₂ c hhook hraise hbenign
    obtain ⟨heq, herr⟩ := emitAfter_raise_stops ev l h hhook hraise l₁ l₂ c hbenign
    exact ⟨heq, heq ▸ herr⟩
  · intro ty sn mn cs ls op c0 hbt
    cases hE : (emitBeforeTransaction
        { type := ty, serviceName := sn, methodName := mn, timestamp := c0 } ls c0).1 with
    | ok u =>
      cases u
      have := (emitBefore_result_ok_iff
          { type := ty, serviceName := sn, methodName := mn, timestamp := c0 } ls c0).mp hE
      rw [this] at hbt
      cases hbt
    | error e =>
      refine ⟨e, ?_, ?_⟩ <;>
        · simp only [serviceTransactionCall]
          rw [hE]
  · intro ty sn mn cs ls op c0 txId status value hb haf hop
    have hok := (emitBefore_result_ok_iff
        { type := ty, serviceName := sn, methodName := mn, timestamp := c0 } ls c0).mpr hb
    simp only [serviceTransactionCall]
    split
    · rename_i e he
      rw [hok] at he
      cases he
    · split
      · rename_i msg hmsg
        rw [hop] at hmsg
        cases hmsg
      · split
        · rename_i u hu
          cases u
          have hcontra := (emitAfter_result_ok_iff _ ls _).mp hu
          rw [hcontra] at haf
          cases haf
        · rename_i e2 he2
          split
          · exact ⟨_, rfl⟩
          · exact ⟨_, rfl⟩

/-- Counterexample to C3 as stated: with one listener whose after hook
throws and a ledger operation that succeeds returning "0.0.100", the caller
does not observe the ledger operation's result — the call fails with the
listener's propagated exception. -/
theorem listener_exception_counterexample :
    (serviceTransactionCall "NftCreate" "NftClient" "createNftType" "NftClient.createNftType"
        [{ id := 1, onAfterTransaction := some { durationMs := 0, raises := true } }]
        { durationMs := 0, outcome := .ok ("tx", "SUCCESS", "0.0.100") } 0).result =
      Except.error (CallError.listenerThrown 1 Phase.afterPhase) ∧
    (serviceTransactionCall "NftCreate" "NftClient" "createNftType" "NftClient.createNftType"
        [{ id := 1, onAfterTransaction := some { durationMs := 0, raises := true } }]
        { durationMs := 0, outcome := .ok ("tx", "SUCCESS", "0.0.100") } 0).result ≠
      Except.ok "0.0.100" := ⟨rfl, by decide⟩

/-- Evaluation of C3 (amended): a before hook of listener 7 throwing leaves
listener 8 uninvoked and fails the whole call with listener 7's
exception before any after-emission. -/
theorem listener_exception_propagation_witness :
    (emitBeforeTransaction { type := "t", serviceName := "s", methodName := "m", timestamp := 0 }
        ([] ++ { id := 7, onBeforeTransaction := some { durationMs := 2, raises := true } } ::
          [{ id := 8, onBeforeTransaction := some { durationMs := 1, raises := false } }]) 0).1 =
      Except.error (CallError.listenerThrown 7 Phase.beforePhase) := by
  have h := listener_exception_propagation
  exact (h.1 { type := "t", serviceName := "s", methodName := "m", timestamp := 0 }
      { id := 7, onBeforeTransaction := some { durationMs := 2, raises := true } }
      { durationMs := 2, raises := true } []
      [{ id := 8, onBeforeTransaction := some { durationMs := 1, raises := false } }] 0
      rfl rfl (by simp)).2

end Hiero



